import Mathlib

/-!
Shallow embedding of the capability invocation gateway of the ClawSync
repository: the Security Gate (`convex/agent/security.ts`), the Capability
Registry lifecycle mutations (`convex/skillRegistry.ts`), the webhook
executor (template-skill executor file, `webhookCaller`), the Scheduler
(`convex/scheduledTasks.ts`) and the Audit/Summary pipeline
(`convex/skillSummary.ts`).

Modelling conventions:
* JS millisecond timestamps are `Nat`; the JS `Date` local-time calendar is
  modelled as a fixed-offset calendar whose days are exactly 86,400,000 ms
  (daylight-saving shifts are not modelled).
* JS strings whose length/slicing arithmetic matters are modelled as
  `List Char` (a JS string is a sequence of UTF-16 code units; `List Char`
  is the same sequence abstraction); display-only strings stay `String`.
* JSON configuration strings are modelled by their parsed structured
  values (`ConfigVal`, `SchemaJson`); a `JSON.parse` failure of a schema
  string is the `SchemaParse.malformed` case.
* Convex documents are structures; the database is passed explicitly where
  a mutation reads it; `Date.now()` is an explicit `now : Nat` parameter.
-/

namespace ClawSync

/-- Lifecycle status of a skill (`pending | active | inactive`),
from the `skillRegistry` validators. -/
inductive SkillStatus
  | pending
  | active
  | inactive
deriving DecidableEq, Repr

/-- The string the JS union value renders to, used in reason messages. -/
def SkillStatus.text : SkillStatus → String
  | .pending => "pending"
  | .active => "active"
  | .inactive => "inactive"

/-- Skill kind (`template | webhook | code`), from `skillRegistry.create`. -/
inductive SkillType
  | template
  | webhook
  | code
deriving DecidableEq, Repr

/-- Parsed JSON schema as read by `validateInput`: only the `type` and
`required` properties are consulted by the source. -/
structure SchemaJson where
  type : Option String := none
  required : Option (List String) := none
deriving DecidableEq, Repr

/-- Result of `JSON.parse` on a schema string: either a throw
(`malformed`, caught by `validateInput` as `Invalid schema`) or the
parsed value. -/
inductive SchemaParse
  | malformed
  | parsed (s : SchemaJson)
deriving DecidableEq, Repr

/-- Parsed skill `config` JSON. Only the properties the embedded code
reads are modelled: `allowedDomains` (security gate), `url`, `method`,
`headers`, `maxResponseSize` (webhook caller), `inputSchema`
(MCP tool listing / seed data). Absent JSON properties are the defaults. -/
structure ConfigVal where
  allowedDomains : List String := []
  url : Option String := none
  method : Option String := none
  headers : List (String × String) := []
  maxResponseSize : Option Nat := none
  inputSchema : Option SchemaJson := none
deriving DecidableEq, Repr

/-- A `skillRegistry` document (fields from `skillRegistry.create` plus
the lifecycle fields it initialises). -/
structure Skill where
  name : String
  description : String
  skillType : SkillType
  templateId : Option String := none
  config : Option ConfigVal := none
  status : SkillStatus
  permissions : List String := []
  rateLimitPerMinute : Nat := 30
  timeoutMs : Nat := 30000
  supportsImages : Bool := false
  supportsStreaming : Bool := false
  uiMeta : Option String := none
  approved : Bool
  approvedAt : Option Nat := none
  createdAt : Nat
  updatedAt : Nat
deriving DecidableEq, Repr

/-- An `mcpServers` document, restricted to the fields `checkSecurity`
reads. -/
structure McpServer where
  name : String
  approved : Bool
deriving DecidableEq, Repr

/-- The `options` argument of `checkSecurity`. -/
structure CheckOptions where
  domain : Option String := none
  mcpServer : Option McpServer := none
deriving DecidableEq, Repr

/-- The closed reason-code enum of `SecurityCheckResult`. -/
inductive SecurityCode
  | passed
  | unapproved
  | inactive
  | rate_limited
  | domain_blocked
  | input_invalid
  | timeout
  | mcp_unapproved
deriving DecidableEq, Repr

/-- `SecurityCheckResult` from `convex/agent/security.ts`. -/
structure SecurityCheckResult where
  allowed : Bool
  reason : String
  code : SecurityCode
deriving DecidableEq, Repr

/-- An invocation input as seen by `validateInput`: either a JS object
(modelled by its set of own property names; property values are never
read) or a non-object value. -/
inductive InputVal
  | obj (fields : List String)
  | nonObject
deriving DecidableEq, Repr

/-- Whether `typeof input === 'object'` holds. -/
def InputVal.isObject : InputVal → Bool
  | .obj _ => true
  | .nonObject => false

/-- `validateInput` from `convex/agent/security.ts` (lines 115-137):
parse the schema (throw → `Invalid schema`), check `type: 'object'`
against `typeof`, then scan `required` in order for the first property
name absent from the input object. A `field in inputObj` test on a
non-object throws in JS and is caught as `Invalid schema`. -/
def validateInput (input : InputVal) (schema : SchemaParse) : Option String :=
  match schema with
  | .malformed => some "Invalid schema"
  | .parsed s =>
    if s.type = some "object" && !input.isObject then
      some "Input must be an object"
    else
      match s.required with
      | none => none
      | some reqs =>
        match input with
        | .obj fields =>
          match reqs.find? (fun f => !(fields.contains f)) with
          | some f => some ("Missing required field: " ++ f)
          | none => none
        | .nonObject =>
          if reqs.isEmpty then none else some "Invalid schema"

/-- `checkSecurity` from `convex/agent/security.ts` (lines 38-99),
translated check for check in source order:
1. `skill.approved` else `unapproved`;
2. `skill.status === 'active'` else `inactive`;
3. (rate limiting is a placeholder comment in the source — no check);
4. webhook domain allowlist else `domain_blocked`;
5. MCP server approval else `mcp_unapproved`;
otherwise `passed`. The `input` argument is received but (as in the
source, where it is named `_input`) never read. -/
def checkSecurity (skill : Skill) ( _input : InputVal) (options : CheckOptions) :
    SecurityCheckResult :=
  if !skill.approved then
    { allowed := false
      reason := "Skill \"" ++ skill.name ++ "\" is not approved by owner"
      code := .unapproved }
  else if skill.status ≠ .active then
    { allowed := false
      reason := "Skill \"" ++ skill.name ++ "\" is not active (status: " ++
        skill.status.text ++ ")"
      code := .inactive }
  else
    let domainVerdict : Option SecurityCheckResult :=
      match skill.skillType, options.domain with
      | .webhook, some domain =>
        let config := skill.config.getD {}
        let allowedDomains := config.allowedDomains
        if allowedDomains.length > 0 && !(allowedDomains.contains domain) then
          some { allowed := false
                 reason := "Domain \"" ++ domain ++ "\" is not in allowlist"
                 code := .domain_blocked }
        else none
      | _, _ => none
    match domainVerdict with
    | some verdict => verdict
    | none =>
      match options.mcpServer with
      | some server =>
        if !server.approved then
          { allowed := false
            reason := "MCP server \"" ++ server.name ++ "\" is not approved"
            code := .mcp_unapproved }
        else
          { allowed := true, reason := "All security checks passed", code := .passed }
      | none =>
        { allowed := true, reason := "All security checks passed", code := .passed }

/-- The fixed truncation marker appended by every truncation site. -/
def truncMarker : List Char := "...[truncated]".data

/-- `truncateForLog` from `convex/agent/security.ts` (lines 105-109),
on the string branch (`typeof input === 'string'`; other inputs are
first `JSON.stringify`-ed to a string and then take the same path). -/
def truncateForLog (str : List Char) (maxLength : Nat := 500) : List Char :=
  if str.length ≤ maxLength then str
  else str.take maxLength ++ truncMarker

/-! ## Capability Registry (`convex/skillRegistry.ts`) -/

/-- The argument validator of `skillRegistry.create`: the caller can
supply neither `approved` nor `status` (the Convex object validator
rejects unknown fields). -/
structure CreateArgs where
  name : String
  description : String
  skillType : SkillType
  templateId : Option String := none
  config : Option ConfigVal := none
  permissions : Option (List String) := none
  rateLimitPerMinute : Option Nat := none
  timeoutMs : Option Nat := none
  supportsImages : Option Bool := none
  supportsStreaming : Option Bool := none
  uiMeta : Option String := none
deriving DecidableEq, Repr

/-- `skillRegistry.create` (lines 56-104): reject a duplicate name,
otherwise insert with `status: 'pending'` and `approved: false`
hardcoded and the `??`-defaults of the source. The database is the list
of existing skills; the inserted document is returned. -/
def createSkill (db : List Skill) (args : CreateArgs) (now : Nat) :
    Except String Skill :=
  match db.find? (fun s => s.name == args.name) with
  | some _ => .error ("Skill with name \"" ++ args.name ++ "\" already exists")
  | none =>
    .ok { name := args.name
          description := args.description
          skillType := args.skillType
          templateId := args.templateId
          config := args.config
          status := .pending
          permissions := args.permissions.getD []
          rateLimitPerMinute := args.rateLimitPerMinute.getD 30
          timeoutMs := args.timeoutMs.getD 30000
          supportsImages := args.supportsImages.getD false
          supportsStreaming := args.supportsStreaming.getD false
          uiMeta := args.uiMeta
          approved := false
          createdAt := now
          updatedAt := now }

/-- The argument validator of `skillRegistry.update`: every field is
optional and neither `approved` nor `approvedAt` is among them. -/
structure UpdateArgs where
  name : Option String := none
  description : Option String := none
  config : Option ConfigVal := none
  status : Option SkillStatus := none
  permissions : Option (List String) := none
  rateLimitPerMinute : Option Nat := none
  timeoutMs : Option Nat := none
  supportsImages : Option Bool := none
  supportsStreaming : Option Bool := none
  uiMeta : Option String := none
deriving DecidableEq, Repr

/-- `skillRegistry.update` (lines 107-132): `ctx.db.patch` with the
supplied fields plus a fresh `updatedAt`; absent fields keep the stored
value. -/
def updateSkill (s : Skill) (args : UpdateArgs) (now : Nat) : Skill :=
  { s with
    name := args.name.getD s.name
    description := args.description.getD s.description
    config := match args.config with | some c => some c | none => s.config
    status := args.status.getD s.status
    permissions := args.permissions.getD s.permissions
    rateLimitPerMinute := args.rateLimitPerMinute.getD s.rateLimitPerMinute
    timeoutMs := args.timeoutMs.getD s.timeoutMs
    supportsImages := args.supportsImages.getD s.supportsImages
    supportsStreaming := args.supportsStreaming.getD s.supportsStreaming
    uiMeta := match args.uiMeta with | some u => some u | none => s.uiMeta
    updatedAt := now }

/-- `skillRegistry.approve` (lines 134-144). -/
def approveSkill (s : Skill) (now : Nat) : Skill :=
  { s with approved := true, approvedAt := some now, updatedAt := now }

/-- `skillRegistry.reject` (lines 146-156). -/
def rejectSkill (s : Skill) (now : Nat) : Skill :=
  { s with approved := false, status := .inactive, updatedAt := now }

/-! ## Webhook executor (`webhookCaller`) -/

/-- An outbound HTTP request as assembled by `webhookCaller`. -/
structure HttpRequest where
  url : String
  method : String
  headers : List (String × String)
  body : String
deriving DecidableEq, Repr

/-- An HTTP response: `redirectTo` is `some target` when the server
answers with a redirect status pointing at `target`. -/
structure HttpResponse where
  redirectTo : Option String := none
  ok : Bool := true
  status : Nat := 200
  statusText : String := ""
  body : List Char := []
deriving DecidableEq, Repr

/-- The network: what each request would receive. -/
def Server : Type := HttpRequest → HttpResponse

/-- The `redirect` option of the platform `fetch`. -/
inductive RedirectMode
  | follow
  | error
  | manual
deriving DecidableEq, Repr

/-- Modelled from the spec: the platform `fetch` redirect semantics,
which the repository does not implement itself. Under `follow`, a
redirect response causes the target to be fetched (up to a hop budget);
under `error` — the mode the webhook executor passes — "a redirect
response is treated as a hard failure, not retried" and "the redirect
target is never fetched"; under `manual` the redirect response is
returned as-is. The second component records every URL actually
fetched, in order. -/
def fetchWith (server : Server) (mode : RedirectMode) (fuel : Nat) (req : HttpRequest) :
    Except String HttpResponse × List String :=
  match (server req).redirectTo with
  | none => (.ok (server req), [req.url])
  | some target =>
    match mode with
    | .error => (.error "fetch failed: redirect received in redirect mode error", [req.url])
    | .manual => (.ok (server req), [req.url])
    | .follow =>
      match fuel with
      | 0 => (.error "fetch failed: too many redirects", [req.url])
      | fuel + 1 =>
        let rest := fetchWith server .follow fuel { req with url := target }
        (rest.1, req.url :: rest.2)

/-- A `skillSecrets` document as read by `webhookCaller`. -/
structure Secret where
  key : String
  encryptedValue : String
deriving DecidableEq, Repr

/-- Header secret-placeholder resolution of `webhookCaller` (a header
value `secret:K` is replaced by the stored value for key `K`; an
unknown key leaves the placeholder in place, as in the source). -/
def resolveHeaders (headers : List (String × String)) (secrets : List Secret) :
    List (String × String) :=
  headers.map fun kv =>
    if kv.2.startsWith "secret:" then
      match secrets.find? (fun s => s.key == kv.2.drop 7) with
      | some s => (kv.1, s.encryptedValue)
      | none => kv
    else kv

/-- `JSON.stringify(\x7b input \x7d)` for a string `input` (escaping of
quotes inside `input` is elided; no theorem depends on the body text). -/
def jsonWrapInput (input : String) : String :=
  "\x7b\"input\":\"" ++ input ++ "\"\x7d"

/-- The response-size truncation of `webhookCaller` (lines 229-236):
ceiling `maxSize`, marker `...[truncated]`. -/
def truncateResponse (maxSize : Nat) (text : List Char) : List Char :=
  if text.length > maxSize then text.take maxSize ++ truncMarker
  else text

/-- `webhookCaller` from the template-skill executor: read `config.url`
(throw when absent), resolve secret placeholders into the headers,
issue the `fetch` with `redirect: 'error'`, treat a non-2xx response as
a thrown error, and truncate the response body at
`config.maxResponseSize || 50000`. Returns the thrown-or-returned
result together with the list of URLs fetched. JS `||`-defaults make a
configured `0`/empty string fall back to the default, hence the
explicit falsy tests. -/
def webhookCaller (server : Server) (config : ConfigVal) (input : String)
    (secrets : List Secret) : Except String (List Char) × List String :=
  match config.url with
  | none => (.error "Webhook URL not configured", [])
  | some url =>
    let headers :=
      resolveHeaders (("Content-Type", "application/json") :: config.headers) secrets
    let method := match config.method with
      | some m => if m = "" then "POST" else m
      | none => "POST"
    let req : HttpRequest :=
      { url := url, method := method, headers := headers, body := jsonWrapInput input }
    match fetchWith server .error 20 req with
    | (.error e, fetched) => (.error e, fetched)
    | (.ok resp, fetched) =>
      if !resp.ok then
        (.error ("Webhook failed: " ++ toString resp.status ++ " " ++ resp.statusText),
         fetched)
      else
        let maxSize := match config.maxResponseSize with
          | some m => if m = 0 then 50000 else m
          | none => 50000
        (.ok (truncateResponse maxSize resp.body), fetched)

/-! ## Scheduler (`convex/scheduledTasks.ts`) -/

/-- Recurrence kind of a scheduled task. The `createSchedule` validator
restricts the type to exactly these three, so the `default` branch of
`calculateNextRun` is unreachable on stored documents. -/
inductive ScheduleType
  | daily
  | weekly
  | interval
deriving DecidableEq, Repr

/-- The `schedule` object of a `scheduledTasks` document. -/
structure Schedule where
  type : ScheduleType
  time : Option String := none
  dayOfWeek : Option Nat := none
  intervalMinutes : Option Nat := none
deriving DecidableEq, Repr

/-- One calendar day in milliseconds (the modelled `Date` calendar has
no daylight-saving shifts). -/
def dayMs : Nat := 86400000

/-- JS `String.prototype.split` with a one-character separator, over
the character sequence: split at every occurrence of `sep`, keeping
empty pieces. -/
def splitOnCharAux (sep : Char) : List Char → List Char → List (List Char)
  | [], acc => [acc.reverse]
  | c :: cs, acc =>
    if c = sep then acc.reverse :: splitOnCharAux sep cs []
    else splitOnCharAux sep cs (c :: acc)

/-- JS `Number` on a string of decimal digits (`none` models `NaN` on
any other character; `Number('')` is `0`). -/
def decValAux : List Char → Nat → Option Nat
  | [], acc => some acc
  | c :: cs, acc =>
    if 48 ≤ c.toNat && c.toNat ≤ 57 then decValAux cs (acc * 10 + (c.toNat - 48))
    else none

/-- `time.split(':').map(Number)` destructured to `[hours, minutes]`,
on well-formed `HH:MM` strings (the only form the UI and the source
default produce; `Number` on a non-numeric part — `NaN` — is outside
the modelled domain and read as 0). -/
def parseTimeParts (s : String) : Nat × Nat :=
  let parts := (splitOnCharAux ':' s.data []).map (fun p => (decValAux p 0).getD 0)
  (parts.getD 0 0, parts.getD 1 0)

/-- `new Date(now).getDay()`: the Unix epoch fell on a Thursday (4). -/
def jsGetDay (now : Nat) : Nat := (now / dayMs + 4) % 7

/-- `calculateNextRun` (lines 254-293), with `Date.now()` as the
explicit `now`. `setHours(h, m, 0, 0)` keeps the calendar day of `now`
and replaces the time of day; `setDate(getDate() + k)` adds `k` days.
JS `schedule.time || '09:00'` treats the empty string as absent and
`schedule.intervalMinutes || 60` treats `0` as absent, hence the
explicit falsy tests. -/
def calculateNextRun (schedule : Schedule) (now : Nat) : Nat :=
  match schedule.type with
  | .daily =>
    let t := match schedule.time with
      | some s => if s = "" then "09:00" else s
      | none => "09:00"
    let hm := parseTimeParts t
    let next := now / dayMs * dayMs + (hm.1 * 60 + hm.2) * 60000
    if next ≤ now then next + dayMs else next
  | .weekly =>
    let t := match schedule.time with
      | some s => if s = "" then "09:00" else s
      | none => "09:00"
    let hm := parseTimeParts t
    let dayOfWeek := schedule.dayOfWeek.getD 1
    let next := now / dayMs * dayMs + (hm.1 * 60 + hm.2) * 60000
    let daysUntilNext := (dayOfWeek + 7 - jsGetDay now) % 7
    if daysUntilNext = 0 && next ≤ now then next + 7 * dayMs
    else next + daysUntilNext * dayMs
  | .interval =>
    let minutes := match schedule.intervalMinutes with
      | some m => if m = 0 then 60 else m
      | none => 60
    now + minutes * 60 * 1000

/-- A `scheduledTasks` document. -/
structure TaskDoc where
  id : Nat
  name : String
  description : String
  prompt : String
  schedule : Schedule
  enabled : Bool
  lastRunAt : Option Nat := none
  nextRunAt : Nat
  createdAt : Nat
  runCount : Nat
deriving DecidableEq, Repr

/-- `getDueTasks` (lines 70-82): index range `nextRunAt <= now`, then
filter `enabled == true`. -/
def getDueTasks (tasks : List TaskDoc) (now : Nat) : List TaskDoc :=
  (tasks.filter (fun t => t.nextRunAt ≤ now)).filter (fun t => t.enabled)

/-- The `result` object `executeTask` resolves with. -/
structure ExecOutcome where
  success : Bool
  result : Option String := none
  error : Option String := none
deriving DecidableEq, Repr

/-- `executeTask` (lines 155-201) with the agent run abstracted:
`agentRun` is the generated text, or the message of the error the
`try` block threw. A missing or disabled task short-circuits; a thrown
error is caught, recorded as a failed run, and returned as
`success: false` — never re-thrown. -/
def executeTask (task : Option TaskDoc) (agentRun : Except String String) :
    ExecOutcome :=
  match task with
  | none => { success := false, error := some "Task not found or disabled" }
  | some t =>
    if !t.enabled then { success := false, error := some "Task not found or disabled" }
    else
      match agentRun with
      | .ok text => { success := true, result := some text }
      | .error e => { success := false, error := some e }

/-- One element of the `results` array of `checkAndExecute`. -/
structure RunEntry where
  taskId : Nat
  name : String
  success : Bool
  result : Option String := none
  error : Option String := none
deriving DecidableEq, Repr

/-- The body of the `checkAndExecute` loop for one task: run it
(`exec task` is the promise of `ctx.runAction(executeTask, ...)`,
`Except.error` a rejection) and build the pushed entry — the `catch`
branch records `success: false` with the thrown message. -/
def runEntryFor (exec : TaskDoc → Except String ExecOutcome) (task : TaskDoc) :
    RunEntry :=
  match exec task with
  | .ok r =>
    { taskId := task.id, name := task.name, success := r.success
      result := r.result, error := r.error }
  | .error e =>
    { taskId := task.id, name := task.name, success := false, error := some e }

/-- `checkAndExecute` (lines 214-251): query the due tasks, early-return
`executed: 0` when none, otherwise loop over every due task with a
per-task `try/catch`, pushing one entry per task, and report
`executed: dueTasks.length`. -/
def checkAndExecute (tasks : List TaskDoc) (now : Nat)
    (exec : TaskDoc → Except String ExecOutcome) : Nat × List RunEntry :=
  let dueTasks := getDueTasks tasks now
  if dueTasks.isEmpty then (0, [])
  else
    let results := dueTasks.foldl (fun acc task => acc ++ [runEntryFor exec task]) []
    (dueTasks.length, results)

/-! ## Audit & Summarization (`convex/skillSummary.ts`) -/

/-- A `skillInvocationLog` document, restricted to the fields
`aggregate` reads. -/
structure LogRecord where
  skillName : String
  success : Bool
  durationMs : Nat
  timestamp : Nat
deriving DecidableEq, Repr

/-- The per-skill accumulator of the `aggregate` pass. -/
structure Stats where
  total : Nat
  success : Nat
  failure : Nat
  totalDuration : Nat
  lastInvokedAt : Nat
deriving DecidableEq, Repr

/-- The `skillStats[name]` initial value. -/
def emptyStats : Stats :=
  { total := 0, success := 0, failure := 0, totalDuration := 0, lastInvokedAt := 0 }

/-- One iteration of the grouping loop of `aggregate` (lines 54-74). -/
def updateStats (st : Stats) (log : LogRecord) : Stats :=
  { total := st.total + 1
    success := if log.success then st.success + 1 else st.success
    failure := if log.success then st.failure else st.failure + 1
    totalDuration := st.totalDuration + log.durationMs
    lastInvokedAt := max st.lastInvokedAt log.timestamp }

/-- The grouping loop state transition: the record table `skillStats`
is a map from skill name to its accumulated stats (`none` = no entry). -/
def statsStep (acc : String → Option Stats) (log : LogRecord) :
    String → Option Stats :=
  fun n =>
    if n = log.skillName then some (updateStats ((acc log.skillName).getD emptyStats) log)
    else acc n

/-- The whole grouping loop of `aggregate` over the scanned window. -/
def collectStats (logs : List LogRecord) : String → Option Stats :=
  logs.foldl statsStep (fun _ => none)

/-- A `skillInvocationSummary` document. -/
structure Summary where
  skillName : String
  totalInvocations : Nat
  successCount : Nat
  failureCount : Nat
  avgDurationMs : Nat
  lastInvokedAt : Nat
  updatedAt : Nat
deriving DecidableEq, Repr

/-- `Math.round(totalDuration / total)` over naturals: round-half-up of
the exact quotient (double-precision rounding error on the division is
not modelled; no theorem depends on this field). -/
def jsRoundDiv (num den : Nat) : Nat := (2 * num + den) / (2 * den)

/-- `skillSummary.aggregate` (lines 35-109) applied to the scanned
window `logs`: group the window by skill name, then for each grouped
name either accumulate into the existing summary row (patch branch) or
insert a fresh one. Names with no log in the window keep their prior
summary. The summary table is a map from skill name to its row. -/
def aggregatePass (logs : List LogRecord) (existing : String → Option Summary)
    (now : Nat) : String → Option Summary :=
  let stats := collectStats logs
  fun name =>
    match stats name with
    | none => existing name
    | some st =>
      let avgDurationMs := if st.total > 0 then jsRoundDiv st.totalDuration st.total else 0
      match existing name with
      | some ex =>
        some { ex with
               totalInvocations := ex.totalInvocations + st.total
               successCount := ex.successCount + st.success
               failureCount := ex.failureCount + st.failure
               avgDurationMs := avgDurationMs
               lastInvokedAt := max ex.lastInvokedAt st.lastInvokedAt
               updatedAt := now }
      | none =>
        some { skillName := name
               totalInvocations := st.total
               successCount := st.success
               failureCount := st.failure
               avgDurationMs := avgDurationMs
               lastInvokedAt := st.lastInvokedAt
               updatedAt := now }

/-! ## Concrete sample records used to evaluate the definitions -/

/-- The `weather` scenario skill of the spec: a webhook skill still in
its registration state (`approved=false, status=pending`). -/
def weatherSkill : Skill :=
  { name := "weather", description := "weather lookup", skillType := .webhook
    status := .pending, approved := false, createdAt := 0, updatedAt := 0 }

/-- An approved, active skill whose config schema requires a `city`
property. -/
def skillRequiresCity : Skill :=
  { name := "weather-lookup", description := "weather lookup", skillType := .code
    config := some { inputSchema := some { required := some ["city"] } }
    status := .active, approved := true, createdAt := 0, updatedAt := 0 }

/-- Registration arguments for the `calc` scenario skill. -/
def createArgsDemo : CreateArgs :=
  { name := "calc", description := "calculator", skillType := .template
    templateId := some "calculator" }

/-- The document `skillRegistry.create` inserts for `createArgsDemo`
at time 0. -/
def createdDemo : Skill :=
  { name := "calc", description := "calculator", skillType := .template
    templateId := some "calculator", status := .pending, permissions := []
    rateLimitPerMinute := 30, timeoutMs := 30000, approved := false
    createdAt := 0, updatedAt := 0 }

/-- A network on which every request is answered with a redirect. -/
def redirectingServer : Server := fun _ =>
  { redirectTo := some "http://evil.example/", ok := false, status := 302
    statusText := "Found" }

/-- A webhook config pointing at a fixed URL. -/
def webhookConfigDemo : ConfigVal := { url := some "https://hooks.example/run" }

/-- A due, enabled scheduled task. -/
def taskDemo1 : TaskDoc :=
  { id := 1, name := "digest", description := "", prompt := "daily digest"
    schedule := { type := .interval, intervalMinutes := some 60 }
    enabled := true, nextRunAt := 0, createdAt := 0, runCount := 0 }

/-- A second due, enabled scheduled task. -/
def taskDemo2 : TaskDoc :=
  { id := 2, name := "news", description := "", prompt := "news scan"
    schedule := { type := .interval, intervalMinutes := some 60 }
    enabled := true, nextRunAt := 0, createdAt := 0, runCount := 0 }

/-- An execution in which the first task throws and the second
succeeds. -/
def mixedExec : TaskDoc → Except String ExecOutcome := fun t =>
  if t.id = 1 then .error "boom" else .ok { success := true, result := some "ok" }

/-- A two-record audit window for the `calc` skill: one success, one
failure. -/
def logsDemo : List LogRecord :=
  [ { skillName := "calc", success := true, durationMs := 10, timestamp := 100 }
  , { skillName := "calc", success := false, durationMs := 30, timestamp := 200 } ]

/-! ## Theorems -/

/-- C1: for every skill record and every invocation context — any input,
any domain, any optional MCP-server metadata — a skill with
`approved = false` or `status ≠ active` is denied by the Security Gate:
`checkSecurity` returns a verdict with `allowed = false`. -/
theorem checkSecurity_denies_unapproved_or_inactive
    (skill : Skill) (input : InputVal) (options : CheckOptions)
    (h : skill.approved = false ∨ skill.status ≠ .active) :
    (checkSecurity skill input options).allowed = false := by
  unfold checkSecurity
  rcases h with h | h
  · simp [h]
  · by_cases ha : skill.approved
    · simp [ha, h]
    · simp [ha]

/-- Witness for C1: the unapproved `weather` skill is denied. -/
theorem checkSecurity_denies_unapproved_or_inactive_witness :
    (checkSecurity weatherSkill (.obj []) ({} : CheckOptions)).allowed = false :=
  checkSecurity_denies_unapproved_or_inactive weatherSkill (.obj []) {} (Or.inl rfl)

/-- C2: every successful `skillRegistry.create` — whatever the caller
supplied — inserts a record with `approved = false` and
`status = 'pending'`. -/
theorem createSkill_forces_pending_unapproved
    (db : List Skill) (args : CreateArgs) (now : Nat) (skill : Skill)
    (h : createSkill db args now = .ok skill) :
    skill.approved = false ∧ skill.status = .pending := by
  unfold createSkill at h
  rcases hfind : db.find? (fun s => s.name == args.name) with _ | s
  · rw [hfind] at h
    cases h
    exact ⟨rfl, rfl⟩
  · rw [hfind] at h
    cases h

/-- Witness for C2: creating `calc` in an empty registry yields a
pending, unapproved record. -/
theorem createSkill_forces_pending_unapproved_witness :
    createSkill [] createArgsDemo 0 = .ok createdDemo ∧
    createdDemo.approved = false ∧ createdDemo.status = .pending :=
  ⟨rfl, createSkill_forces_pending_unapproved [] createArgsDemo 0 createdDemo rfl⟩

/-- C3: a skill that simultaneously fails several gate checks — it is
unapproved, its rate-limit quota is exhausted (no tokens remaining),
and its input fails schema validation — always gets the verdict of the
first check in the fixed short-circuiting order: code `unapproved`,
never a later-order code. -/
theorem checkSecurity_unapproved_shortcircuits
    (skill : Skill) (input : InputVal) (options : CheckOptions)
    (tokensRemaining : Nat) (schema : SchemaParse)
    (hun : skill.approved = false)
    (hrate : tokensRemaining = 0)
    (hinput : validateInput input schema ≠ none) :
    (checkSecurity skill input options).code = .unapproved ∧
    (checkSecurity skill input options).allowed = false := by
  unfold checkSecurity
  simp [hun]

/-- Witness for C3: the unapproved `weather` skill with an exhausted
quota and an input missing the required `city` field is rejected as
`unapproved`. -/
theorem checkSecurity_unapproved_shortcircuits_witness :
    (checkSecurity weatherSkill (.obj []) ({} : CheckOptions)).code = .unapproved :=
  (checkSecurity_unapproved_shortcircuits weatherSkill (.obj []) {} 0
    (.parsed { required := some ["city"] }) rfl rfl (by decide)).1

/-- C4 (code-bug evidence): on an approved, active skill whose schema
requires `city`, an input without `city` fails `validateInput` — yet
`checkSecurity` returns `allowed = true` with code `passed`: the
implementation contains no input-validation step at all (its own doc
comment lists one), so `input_invalid` is never produced, and in
particular is not produced before the MCP check (which does run, last
conjunct). -/
theorem checkSecurity_skips_input_validation :
    validateInput (.obj []) (.parsed { required := some ["city"] }) =
      some "Missing required field: city" ∧
    (checkSecurity skillRequiresCity (.obj []) ({} : CheckOptions)).code = .passed ∧
    (checkSecurity skillRequiresCity (.obj []) ({} : CheckOptions)).allowed = true ∧
    (checkSecurity skillRequiresCity (.obj [])
        { mcpServer := some { name := "srv", approved := false } }).code =
      .mcp_unapproved := by
  refine ⟨rfl, rfl, rfl, rfl⟩

/-- C10: `skillRegistry.update` never changes the `approved` flag,
whatever fields the caller supplies; the dedicated `approve` and
`reject` mutations are the ones that set it. -/
theorem updateSkill_preserves_approved
    (s : Skill) (args : UpdateArgs) (now now2 now3 : Nat) :
    (updateSkill s args now).approved = s.approved ∧
    (approveSkill s now2).approved = true ∧
    (rejectSkill s now3).approved = false :=
  ⟨rfl, rfl, rfl⟩

/-- The two inline truncation sites are the same function with the
comparison flipped. -/
theorem truncateResponse_eq (limit : Nat) (t : List Char) :
    truncateResponse limit t = truncateForLog t limit := by
  unfold truncateResponse truncateForLog
  rcases le_or_lt t.length limit with h | h
  · rw [if_neg (by omega), if_pos h]
  · rw [if_pos h, if_neg (by omega)]

/-- Truncation is idempotent: re-truncating an already truncated string
returns it unchanged. -/
theorem truncateForLog_idem (limit : Nat) (s : List Char) :
    truncateForLog (truncateForLog s limit) limit = truncateForLog s limit := by
  rcases le_or_lt s.length limit with h | h
  · simp [truncateForLog, h]
  · have hinner : truncateForLog s limit = s.take limit ++ truncMarker := by
      rw [truncateForLog, if_neg (by omega)]
    have hlen : (s.take limit).length = limit := by
      rw [List.length_take]; omega
    have hfull : (s.take limit ++ truncMarker).length = limit + 14 := by
      rw [List.length_append, hlen]; rfl
    rw [hinner, truncateForLog, if_neg (by omega),
      List.take_append_eq_append_take, hlen, Nat.sub_self, List.take_take,
      Nat.min_self, List.take_zero, List.append_nil]

/-- C6: both output-truncation sites — `truncateForLog` and the webhook
response truncation — map a string of length `N > limit` to exactly the
first `limit` characters followed by the fixed marker `...[truncated]`,
leave a string of length `≤ limit` unchanged, and are idempotent under
re-truncation. -/
theorem truncation_exact_and_idempotent (limit : Nat) (s t : List Char) :
    (s.length > limit → truncateForLog s limit = s.take limit ++ truncMarker) ∧
    (s.length ≤ limit → truncateForLog s limit = s) ∧
    truncateForLog (truncateForLog s limit) limit = truncateForLog s limit ∧
    (t.length > limit → truncateResponse limit t = t.take limit ++ truncMarker) ∧
    (t.length ≤ limit → truncateResponse limit t = t) ∧
    truncateResponse limit (truncateResponse limit t) = truncateResponse limit t := by
  refine ⟨?_, ?_, truncateForLog_idem limit s, ?_, ?_, ?_⟩
  · intro h; rw [truncateForLog, if_neg (by omega)]
  · intro h; rw [truncateForLog, if_pos h]
  · intro h; rw [truncateResponse, if_pos (by omega)]
  · intro h; rw [truncateResponse, if_neg (by omega)]
  · simp only [truncateResponse_eq]
    exact truncateForLog_idem limit t

/-- Witness for C6: with limit 3, `hello` is cut to `hel` plus the
marker and `hi` is stored verbatim. -/
theorem truncation_exact_and_idempotent_witness :
    truncateForLog "hello".data 3 = "hel".data ++ truncMarker ∧
    truncateResponse 3 "hi".data = "hi".data :=
  ⟨(truncation_exact_and_idempotent 3 "hello".data "hi".data).1 (by decide),
   (truncation_exact_and_idempotent 3 "hello".data "hi".data).2.2.2.2.1 (by decide)⟩

/-- C7: a daily schedule at `09:00` evaluated at 10:00 of day `D` fires
next at 09:00 of day `D + 1`, and evaluated at 08:00 of day `D` fires
at 09:00 of the same day `D` — the next occurrence of the time of day
strictly after `now`. (10:00 = 36,000,000 ms, 09:00 = 32,400,000 ms,
08:00 = 28,800,000 ms into the day.) -/
theorem calculateNextRun_daily_0900 (D : Nat) :
    calculateNextRun { type := .daily, time := some "09:00" } (D * dayMs + 36000000)
      = (D + 1) * dayMs + 32400000 ∧
    calculateNextRun { type := .daily, time := some "09:00" } (D * dayMs + 28800000)
      = D * dayMs + 32400000 := by
  have hp : parseTimeParts "09:00" = (9, 0) := by decide
  have key : ∀ now : Nat,
      calculateNextRun { type := .daily, time := some "09:00" } now
        = if now / 86400000 * 86400000 + 32400000 ≤ now
          then now / 86400000 * 86400000 + 32400000 + 86400000
          else now / 86400000 * 86400000 + 32400000 := by
    intro now
    simp only [calculateNextRun, ite_self, hp, dayMs]
  rw [key, key]
  unfold dayMs
  constructor
  · rw [if_pos (by omega)]
    omega
  · rw [if_neg (by omega)]
    omega

/-- Witness for C7: concrete evaluation on day 0 — created at 10:00,
the next run is 09:00 of the following day (ms timestamp 118,800,000). -/
theorem calculateNextRun_daily_0900_witness :
    calculateNextRun { type := .daily, time := some "09:00" } 36000000 = 118800000 := by
  have h := (calculateNextRun_daily_0900 0).1
  norm_num [dayMs] at h
  exact h

/-- In redirect mode `error`, any redirect response fails the fetch at
once: no retry, and the only URL fetched is the requested one. -/
theorem fetchWith_error_on_redirect (server : Server) (req : HttpRequest)
    (fuel : Nat) (target : String)
    (h : (server req).redirectTo = some target) :
    fetchWith server .error fuel req =
      (.error "fetch failed: redirect received in redirect mode error", [req.url]) := by
  unfold fetchWith
  rw [h]

/-- C5: when the configured webhook target answers with a redirect,
`webhookCaller` fails hard — an error result, not retried — and the
redirect target URL is never fetched: the only URL fetched is the
configured one. -/
theorem webhookCaller_redirect_is_hard_failure
    (server : Server) (config : ConfigVal) (input : String) (secrets : List Secret)
    (url target : String)
    (hurl : config.url = some url)
    (hredir : ∀ req : HttpRequest, req.url = url → (server req).redirectTo = some target) :
    (∃ e, webhookCaller server config input secrets = (Except.error e, [url])) ∧
    (target ≠ url → target ∉ (webhookCaller server config input secrets).2) := by
  have h2 := fetchWith_error_on_redirect server
    { url := url
      method := match config.method with
        | some m => if m = "" then "POST" else m
        | none => "POST"
      headers := resolveHeaders (("Content-Type", "application/json") :: config.headers)
        secrets
      body := jsonWrapInput input } 20 target (hredir _ rfl)
  have hcall : webhookCaller server config input secrets =
      (Except.error "fetch failed: redirect received in redirect mode error", [url]) := by
    simp only [webhookCaller, hurl]
    rw [h2]
  refine ⟨⟨_, hcall⟩, ?_⟩
  intro hne hmem
  rw [hcall] at hmem
  simp at hmem
  exact hne hmem

/-- Witness for C5: against a server that redirects every request, the
demo webhook config produces an error and the redirect target is not
among the fetched URLs. -/
theorem webhookCaller_redirect_is_hard_failure_witness :
    (∃ e, webhookCaller redirectingServer webhookConfigDemo "hi" [] =
      (Except.error e, ["https://hooks.example/run"])) ∧
    "http://evil.example/" ∉ (webhookCaller redirectingServer webhookConfigDemo "hi" []).2 := by
  have h := webhookCaller_redirect_is_hard_failure redirectingServer webhookConfigDemo
    "hi" [] "https://hooks.example/run" "http://evil.example/" rfl (fun _ _ => rfl)
  exact ⟨h.1, h.2 (by decide)⟩

/-- Folding a push-append over a list is a map. -/
theorem foldl_push_eq_map {α β : Type} (f : α → β) (l : List α) (acc : List β) :
    l.foldl (fun a x => a ++ [f x]) acc = acc ++ l.map f := by
  induction l generalizing acc with
  | nil => simp
  | cons x xs ih => simp [ih]

/-- C8: in one polling pass, every due task (enabled and
`nextRunAt ≤ now`) yields exactly one recorded result entry — the pass
maps each due task to an entry computed from that task's own outcome
alone, so one task's failure (thrown or unsuccessful) cannot prevent
any later due task from executing — and a thrown failure is recorded as
`success = false` with its message. -/
theorem checkAndExecute_isolates_failures
    (tasks : List TaskDoc) (now : Nat) (exec : TaskDoc → Except String ExecOutcome) :
    (checkAndExecute tasks now exec).1 = (getDueTasks tasks now).length ∧
    (checkAndExecute tasks now exec).2 = (getDueTasks tasks now).map (runEntryFor exec) ∧
    (∀ task e, exec task = .error e →
      (runEntryFor exec task).success = false ∧
      (runEntryFor exec task).error = some e ∧
      (runEntryFor exec task).taskId = task.id) ∧
    (∀ task r, exec task = .ok r →
      (runEntryFor exec task).success = r.success ∧
      (runEntryFor exec task).taskId = task.id) := by
  refine ⟨?_, ?_, ?_, ?_⟩
  · unfold checkAndExecute
    by_cases h : (getDueTasks tasks now).isEmpty
    · rw [if_pos h]
      rw [List.isEmpty_iff.mp h]
      rfl
    · rw [if_neg h]
  · unfold checkAndExecute
    by_cases h : (getDueTasks tasks now).isEmpty
    · rw [if_pos h]
      rw [List.isEmpty_iff.mp h]
      rfl
    · rw [if_neg h]
      exact foldl_push_eq_map (runEntryFor exec) (getDueTasks tasks now) []
  · intro task e he
    unfold runEntryFor
    rw [he]
    exact ⟨rfl, rfl, rfl⟩
  · intro task r hr
    unfold runEntryFor
    rw [hr]
    exact ⟨rfl, rfl⟩

/-- Witness for C8: with two due tasks where the first throws, the pass
still records two entries — the first failed, the second succeeded. -/
theorem checkAndExecute_isolates_failures_witness :
    (checkAndExecute [taskDemo1, taskDemo2] 5 mixedExec).1 = 2 ∧
    (checkAndExecute [taskDemo1, taskDemo2] 5 mixedExec).2 =
      [runEntryFor mixedExec taskDemo1, runEntryFor mixedExec taskDemo2] ∧
    (runEntryFor mixedExec taskDemo1).success = false ∧
    (runEntryFor mixedExec taskDemo2).success = true := by
  have h := checkAndExecute_isolates_failures [taskDemo1, taskDemo2] 5 mixedExec
  refine ⟨?_, ?_, (h.2.2.1 taskDemo1 "boom" rfl).1, ?_⟩
  · rw [h.1]
    decide
  · rw [h.2.1]
    rfl
  · exact (h.2.2.2 taskDemo2 { success := true, result := some "ok" } rfl).1

/-- The grouping loop of `aggregate`, relative to any starting
accumulator: each skill's bucket grows by exactly the number of its
window records in `total` and in `success + failure`, and a bucket
exists exactly when it existed before or the window mentions the
skill. -/
theorem collectStats_foldl (logs : List LogRecord) :
    ∀ (acc : String → Option Stats) (name : String),
      (((logs.foldl statsStep acc) name).getD emptyStats).total
          = ((acc name).getD emptyStats).total
            + logs.countP (fun l => l.skillName == name) ∧
      (((logs.foldl statsStep acc) name).getD emptyStats).success +
          (((logs.foldl statsStep acc) name).getD emptyStats).failure
          = ((acc name).getD emptyStats).success + ((acc name).getD emptyStats).failure
            + logs.countP (fun l => l.skillName == name) ∧
      (((logs.foldl statsStep acc) name).isSome ↔
        ((acc name).isSome ∨ 0 < logs.countP (fun l => l.skillName == name))) := by
  induction logs with
  | nil =>
    intro acc name
    simp
  | cons log rest ih =>
    intro acc name
    obtain ⟨h1, h2, h3⟩ := ih (statsStep acc log) name
    simp only [List.foldl_cons, List.countP_cons]
    by_cases hn : name = log.skillName
    · have hs : statsStep acc log name = some (updateStats ((acc name).getD emptyStats) log) := by
        simp only [statsStep]
        rw [if_pos hn, ← hn]
      have hc : (log.skillName == name) = true := by
        simp [hn]
      rw [hs] at h1 h2 h3
      simp only [Option.getD_some] at h1 h2
      simp only [hc, eq_self_iff_true, if_true]
      refine ⟨?_, ?_, ?_⟩
      · rw [h1]
        simp only [updateStats]
        omega
      · rw [h2]
        by_cases hsucc : log.success <;> simp [updateStats, hsucc] <;> omega
      · simp only [Option.isSome_some, true_or, iff_true] at h3
        exact ⟨fun _ => Or.inr (Nat.succ_pos _), fun _ => h3⟩
    · have hs : statsStep acc log name = acc name := by
        simp only [statsStep]
        rw [if_neg hn]
      have hc : (log.skillName == name) = false := by
        simp only [beq_eq_false_iff_ne, ne_eq]
        intro hx
        exact hn hx.symm
      rw [hs] at h1 h2 h3
      simp only [hc, Bool.false_eq_true, if_false, add_zero]
      exact ⟨h1, h2, h3⟩

/-- C9: starting with no summary record for a skill, one `aggregate`
pass over a window containing its `N` audit-log records (each marked
success or failure) produces a summary with `totalInvocations = N` and
`successCount + failureCount = N`. -/
theorem aggregate_totals_consistent
    (logs : List LogRecord) (existing : String → Option Summary)
    (now : Nat) (name : String) (N : Nat)
    (hnone : existing name = none)
    (hN : logs.countP (fun l => l.skillName == name) = N)
    (hpos : 0 < N) :
    ∃ s, aggregatePass logs existing now name = some s ∧
      s.totalInvocations = N ∧ s.successCount + s.failureCount = N := by
  obtain ⟨h1, h2, h3⟩ := collectStats_foldl logs (fun _ => none) name
  have hsome : (collectStats logs name).isSome := by
    unfold collectStats
    refine h3.mpr (Or.inr ?_)
    omega
  obtain ⟨st, hst⟩ := Option.isSome_iff_exists.mp hsome
  have hst' : logs.foldl statsStep (fun _ => none) name = some st := hst
  rw [hst'] at h1 h2
  simp [emptyStats] at h1 h2
  refine ⟨{ skillName := name
            totalInvocations := st.total
            successCount := st.success
            failureCount := st.failure
            avgDurationMs := if st.total > 0 then jsRoundDiv st.totalDuration st.total else 0
            lastInvokedAt := st.lastInvokedAt
            updatedAt := now }, ?_, ?_, ?_⟩
  · simp only [aggregatePass]
    rw [show collectStats logs name = some st from hst, hnone]
  · show st.total = N
    omega
  · show st.success + st.failure = N
    omega

/-- Witness for C9: two `calc` records (one success, one failure) and a
pass over them yield a summary with both totals equal to 2. -/
theorem aggregate_totals_consistent_witness :
    ∃ s, aggregatePass logsDemo (fun _ => none) 999 "calc" = some s ∧
      s.totalInvocations = 2 ∧ s.successCount + s.failureCount = 2 :=
  aggregate_totals_consistent logsDemo (fun _ => none) 999 "calc" 2 rfl
    (by decide) (by decide)

end ClawSync
